import Mathlib

/-!
Verification development for the AirAlarmBot repository (src/main.py).

The Python source is shallowly embedded: Python `dict`s become ordered
association lists (`Dict`), the periodic `process_alerts` tick becomes a pure
function from the fetched feed data and the two caches to the updated caches
plus the list of notification intents it sends, and the Telegram message
handlers become pure transition functions on a `BotState` record.  Message
texts that carry no decision-relevant data are abstracted into structured
`Out` constructors; each definition's doc comment names the source lines it
embeds.
-/

namespace AirAlarmBot

/-! ## Python string primitives

`str.lower`, `str.strip`, `str.replace`, `in` (substring test),
`str.startswith` and `str.split(":", 1)[1]` as used by src/main.py.
`pyLower` lowercases the ASCII range only; every concrete string fed to the
theorems below is chosen so that this agrees with Python's `str.lower`
(Cyrillic inputs are used already in lowercase).
-/

/-- ASCII lowercasing of one character. -/
def lowerChar (c : Char) : Char :=
  if 'A' ≤ c ∧ c ≤ 'Z' then Char.ofNat (c.toNat + 32) else c

/-- Python `str.lower` (modelled on the ASCII range). -/
def pyLower (s : String) : String := ⟨s.data.map lowerChar⟩

/-- Whitespace characters recognised by Python `str.strip`. -/
def isSpaceChar (c : Char) : Bool :=
  c = ' ' || c = '\t' || c = '\n' || c = '\r'

/-- Python `str.strip()`: drop leading and trailing whitespace. -/
def pyStrip (s : String) : String :=
  ⟨((s.data.dropWhile isSpaceChar).reverse.dropWhile isSpaceChar).reverse⟩

/-- Substring occurrence test on character lists. -/
def hasSub (pat : List Char) : List Char → Bool
  | [] => pat.isEmpty
  | c :: rest => pat.isPrefixOf (c :: rest) || hasSub pat rest

/-- Python `sub in big` for strings. -/
def pyIn (sub big : String) : Bool := hasSub sub.data big.data

/-- Python `s.startswith(pre)`. -/
def pyStartsWith (pre s : String) : Bool := pre.data.isPrefixOf s.data

/-- Fuel-indexed worker for Python `str.replace`: scan left to right, replace
each non-overlapping occurrence of `pat`.  The fuel starts at the length of
the scanned list, which each step decreases, so fuel never runs out. -/
def replFuel (pat rep : List Char) : Nat → List Char → List Char
  | 0, s => s
  | _ + 1, [] => []
  | f + 1, c :: rest =>
    if pat ≠ [] ∧ pat.isPrefixOf (c :: rest) then
      rep ++ replFuel pat rep f (List.drop (pat.length - 1) rest)
    else
      c :: replFuel pat rep f rest

/-- Python `s.replace(pat, rep)` (all occurrences, left to right). -/
def pyReplace (s pat rep : String) : String :=
  ⟨replFuel pat.data rep.data s.data.length s.data⟩

/-- Characters after the first `:` of `s`; used for Python
`text.split(":", 1)[1]` in `admin_choice` (src/main.py line 375). -/
def dropThroughColon : List Char → List Char
  | [] => []
  | c :: rest => if c = ':' then rest else dropThroughColon rest

/-- Python `text.split(":", 1)[1]` for a string that contains a colon. -/
def afterFirstColon (s : String) : String := ⟨dropThroughColon s.data⟩

/-! ## Ordered dictionaries

Python 3.7+ `dict`s preserve insertion order; assigning to an existing key
updates its value in place.  `Dict` mirrors this with an association list.
-/

/-- A Python `dict` from strings to strings, in insertion order. -/
abbrev Dict := List (String × String)

/-- Python `d.get(k)`: value at the key, if present. -/
def dictGet (d : Dict) (k : String) : Option String :=
  match d with
  | [] => none
  | (a, b) :: t => if a = k then some b else dictGet t k

/-- Python `d[k] = v`: update in place if the key exists, else append. -/
def dictInsert (d : Dict) (k v : String) : Dict :=
  match d with
  | [] => [(k, v)]
  | (a, b) :: t => if a = k then (k, v) :: t else (a, b) :: dictInsert t k v

/-- Build a `Dict` from a pair list, as a Python dict comprehension does:
later occurrences of a key overwrite earlier ones. -/
def buildDict (ps : List (String × String)) : Dict :=
  ps.foldl (fun d p => dictInsert d p.1 p.2) []

/-- The keys of a dictionary, in order. -/
def dictKeys (d : Dict) : List String := d.map Prod.fst

/-- The keys of the dictionary are pairwise distinct. -/
def NodupKeys (d : Dict) : Prop := (dictKeys d).Nodup

instance decNodupKeys (d : Dict) : Decidable (NodupKeys d) :=
  inferInstanceAs (Decidable (dictKeys d).Nodup)

/-- A two-level Python dict: region name to alias section, in insertion
order (the shape of `locations_dict.json`). -/
abbrev LocDict := List (String × Dict)

/-- Python `d.get(k)` on a two-level dictionary. -/
def locGet (d : LocDict) (k : String) : Option Dict :=
  match d with
  | [] => none
  | (a, b) :: t => if a = k then some b else locGet t k

/-- Python `d[k] = v` on a two-level dictionary. -/
def locInsert (d : LocDict) (k : String) (v : Dict) : LocDict :=
  match d with
  | [] => [(k, v)]
  | (a, b) :: t => if a = k then (k, v) :: t else (a, b) :: locInsert t k v

/-! ## Feed data model (src/main.py lines 60-133) -/

/-- One record of the upstream feed's `alerts` array (spec §6 inbound shape). -/
structure AlertRecord where
  location_oblast : String
  location_title : String
  alert_type : String
  finished_at : Option String
deriving DecidableEq

/-- The set `KYIV_OBLAST_NAMES` (src/main.py line 72). -/
def KYIV_OBLAST_NAMES : List String := ["Київська область", "м. Київ"]

/-- The list `OBLASTS_ALL` (src/main.py lines 74-101). -/
def OBLASTS_ALL : List String :=
  ["Автономна Республіка Крим", "Вінницька область", "Волинська область",
   "Дніпропетровська область", "Донецька область", "Житомирська область",
   "Закарпатська область", "Запорізька область", "Івано-Франківська область",
   "Київська область", "м. Київ", "Кіровоградська область",
   "Луганська область", "Львівська область", "Миколаївська область",
   "Одеська область", "Полтавська область", "Рівненська область",
   "Сумська область", "Тернопільська область", "Харківська область",
   "Херсонська область", "Хмельницька область", "Черкаська область",
   "Чернівецька область", "Чернігівська область"]

/-- The list `KYIV_SUBREGIONS` (src/main.py lines 103-111). -/
def KYIV_SUBREGIONS : List String :=
  ["Вишгородський район", "Бучанський район", "Фастівський район",
   "Броварський район", "Бориспільський район", "Обухівський район",
   "Білоцерківський район"]

/-- The `RegionAlertCache` dataclass (src/main.py lines 60-63): one scope's remembered
alert state plus its cold-start flag. -/
structure RegionAlertCache where
  last_alerts : Dict
  initialized : Bool
deriving DecidableEq

/-- The observable part of an HTTP response to the feed request: the status
code, whether `resp.json()` succeeds (content type and body decode), and the
`alerts` array of the decoded body (`data.get("alerts", [])`, so `[]` when
the key is absent). -/
structure HttpResponse where
  status : Nat
  body_parses_as_json : Bool
  alerts : List AlertRecord
deriving DecidableEq

/-- Embeds `_get_api_data` (src/main.py lines 129-133): `none` models a network
error or timeout (the awaited request raises).  On a response, the code
returns `await resp.json()`, which raises when the body does not decode as
JSON and otherwise returns the parsed body regardless of the HTTP status —
the code never consults `resp.status` and never calls `raise_for_status`. -/
def get_api_data (net : Option HttpResponse) : Except Unit (List AlertRecord) :=
  match net with
  | none => Except.error ()
  | some r => if r.body_parses_as_json then Except.ok r.alerts else Except.error ()

/-! ## Reconciliation engine (src/main.py lines 172-236) -/

/-- A notification intent sent by `process_alerts`.  The photo sent alongside
a group alarm or all-clear message (lines 220, 232) is folded into the same
intent; `adminStarted`/`adminEnded` carry the raw `"<oblast>::<title>"`
cache key from which lines 206 and 212 derive the message text. -/
inductive Notif
  | adminStarted (key kind : String)
  | adminEnded (key : String)
  | groupStarted (title kind : String)
  | groupEnded (title : String)
  | groupCleared
deriving DecidableEq

/-- The global diff key `f"{a['location_oblast']}::{a['location_title']}"`
(src/main.py line 182). -/
def globalKey (a : AlertRecord) : String :=
  a.location_oblast ++ "::" ++ a.location_title

/-- Builds `new_state_global` (src/main.py line 182). -/
def new_state_global (alerts : List AlertRecord) : Dict :=
  buildDict (alerts.map fun a => (globalKey a, a.alert_type))

/-- Filters `relevant_kyiv` (src/main.py line 185). -/
def relevant_kyiv (alerts : List AlertRecord) : List AlertRecord :=
  alerts.filter fun a => KYIV_OBLAST_NAMES.contains a.location_oblast

/-- Builds `new_state_kyiv` (src/main.py line 186). -/
def new_state_kyiv (alerts : List AlertRecord) : Dict :=
  buildDict ((relevant_kyiv alerts).map fun a => (a.location_title, a.alert_type))

/-- Python truthiness of the optional chat id (`... and chat_id`). -/
def truthyOpt : Option Int → Bool
  | none => false
  | some n => decide (n ≠ 0)

/-- The notification intents of one TRACKING tick (src/main.py lines
202-232), in emission order: global started or changed (lines 204-208), then
global ended (lines 210-214), then Kyiv started or changed (lines 218-222),
then Kyiv ended (lines 225-227), then the Kyiv scope-wide all-clear (lines
229-232).  `oldG`/`oldK` are the caches' remembered states, `nsg`/`nsk` the
freshly built states. -/
def tick_events (oldG oldK nsg nsk : Dict) (chat_id : Option Int)
    (admin_chat : Int) : List Notif :=
  (nsg.filterMap fun p =>
    if dictGet oldG p.1 ≠ some p.2 ∧ admin_chat ≠ 0 then
      some (Notif.adminStarted p.1 p.2) else none)
  ++ (oldG.filterMap fun p =>
    if dictGet nsg p.1 = none ∧ admin_chat ≠ 0 then
      some (Notif.adminEnded p.1) else none)
  ++ (nsk.filterMap fun p =>
    if dictGet oldK p.1 ≠ some p.2 ∧ truthyOpt chat_id = true then
      some (Notif.groupStarted p.1 p.2) else none)
  ++ (oldK.filterMap fun p =>
    if dictGet nsk p.1 = none ∧ truthyOpt chat_id = true then
      some (Notif.groupEnded p.1) else none)
  ++ (if oldK ≠ [] ∧ nsk = [] ∧ truthyOpt chat_id = true then
      [Notif.groupCleared] else [])

/-- Embeds `process_alerts` (src/main.py lines 172-236).  A raising fetch aborts
the tick before any cache mutation (the exception propagates out of the job
callback), modelled by returning the caches unchanged with no intents.  On a
parsed body: lines 193-200 handle cold start (first branch snapshots the
global cache without returning; the Kyiv branch snapshots and returns), the
TRACKING branch emits `tick_events` and then lines 235-236 replace both
`last_alerts` fields. -/
def process_alerts (net : Option HttpResponse) (cg ck : RegionAlertCache)
    (chat_id : Option Int) (admin_chat : Int) :
    RegionAlertCache × RegionAlertCache × List Notif :=
  match get_api_data net with
  | Except.error _ => (cg, ck, [])
  | Except.ok alerts =>
    let nsg := new_state_global alerts
    let nsk := new_state_kyiv alerts
    let cg2 := if cg.initialized then cg
               else { last_alerts := nsg, initialized := true }
    if ck.initialized then
      ({ cg2 with last_alerts := nsg }, { ck with last_alerts := nsk },
       tick_events cg2.last_alerts ck.last_alerts nsg nsk chat_id admin_chat)
    else
      (cg2, { last_alerts := nsk, initialized := true }, [])

/-- Embeds `_region_status_contains` (src/main.py lines 241-250): the ad-hoc
containment check used by the shortcut query handlers; records whose
`finished_at` is non-null are skipped. -/
def region_status_contains (keyword : String) (alerts : List AlertRecord) : Bool :=
  let kw := pyLower keyword
  alerts.any fun a =>
    a.finished_at = none &&
      (pyIn kw (pyLower a.location_oblast) || pyIn kw (pyLower a.location_title))

/-! ## Dictionary queries and the curation conversation
(src/main.py lines 283-453)

Per-handler state lives in `BotState`: `locations_dict` is
`bot_data["locations_dict"]` (the in-memory copy), `saved_dict` the content
of `locations_dict.json` on disk (`load_locations_dict`/`save_locations_dict`
read and write it; startup has already created the file),
`pending_location` is `user_data["pending_location"]` for the one user being
tracked, and `pending_keyword`/`await_region`/`await_subregion`/
`chosen_region` are the `bot_data` curation keys.  Replies are abstracted
into structured `Out` intents; each constructor's doc names its source line.
-/

/-- An outbound message intent of the conversation handlers. -/
inductive Out
  /-- Line 317: alert active in the resolved subregion. -/
  | replyStatusActive (region : String)
  /-- Line 319: resolved subregion currently calm. -/
  | replyStatusCalm (region : String)
  /-- Lines 327-330: unknown place, offer to forward to the admin. -/
  | replyUnknownAsk
  /-- Line 344: acknowledgement of the user's "ні". -/
  | replyDeclined
  /-- Lines 349-357: the proposal message to the admin, whose keyboard
  buttons carry the raw keyword. -/
  | adminProposal (keyword : String)
  /-- Line 358: confirmation to the user that the proposal was sent. -/
  | replySentToAdmin
  /-- Line 369: admin rejected the proposal. -/
  | replyRejected
  /-- Lines 381-384: region keyboard shown to the admin. -/
  | askRegion (keyword : String)
  /-- Lines 404-407: Kyiv subregion keyboard shown to the admin. -/
  | askSubregion (keyword : String)
  /-- Lines 420 and 447: "added keyword to target" confirmation. -/
  | replyAdded (keyword target : String)
  /-- A reply of one of the fixed shortcut handlers (lines 252-278) or the
  `/start`, `/stopbot`, `/list_regions` commands (lines 457-486); these
  never touch the dictionary, so their text is abstracted to a tag. -/
  | replyOther (tag : String)
deriving DecidableEq

/-- The mutable state the message handlers read and write. -/
structure BotState where
  locations_dict : LocDict
  saved_dict : LocDict
  pending_location : Option String
  pending_keyword : Option String
  await_region : Bool
  await_subregion : Bool
  chosen_region : Option String
  chat_id : Option Int
  cache_kyiv : RegionAlertCache
deriving DecidableEq

/-- Embeds `get_kyiv_dict` (src/main.py lines 283-285): only the `"Київська
область"` section of the in-memory dictionary. -/
def get_kyiv_dict (st : BotState) : Dict :=
  (locGet st.locations_dict "Київська область").getD []

/-- The guard phrase list of `handle_dynamic_query` (src/main.py lines
295-298). -/
def guard_phrases : List String :=
  ["що по області", "що по києву", "як там крим", "що по одес",
   "що по луган", "що по франику", "що по івано-франківську",
   "що по франківську", "що по черніг"]

/-- The alias-matching loop of `handle_dynamic_query` (src/main.py lines
306-310): first alias wins whose lowercased form equals the keyword or
contains it as a substring. -/
def resolve_alias (kyivMap : Dict) (keyword : String) : Option String :=
  match kyivMap with
  | [] => none
  | (al, sub) :: rest =>
    if keyword = pyLower al ∨ pyIn keyword (pyLower al) = true then some sub
    else resolve_alias rest keyword

/-- Embeds `handle_dynamic_query` (src/main.py lines 287-332). -/
def handle_dynamic_query (st : BotState) (text_raw : String) :
    BotState × List Out :=
  let text := pyStrip (pyLower text_raw)
  if pyStartsWith "що по" text = false then (st, [])
  else if guard_phrases.any (fun p => pyIn p text) then (st, [])
  else
    let kyivMap := get_kyiv_dict st
    let keyword := pyLower (pyStrip (pyReplace (pyReplace text "що по" "") "?" ""))
    match resolve_alias kyivMap keyword with
    | some region =>
      if (dictGet st.cache_kyiv.last_alerts region).isSome then
        (st, [Out.replyStatusActive region])
      else
        (st, [Out.replyStatusCalm region])
    | none =>
      ({ st with pending_location := some keyword }, [Out.replyUnknownAsk])

/-- Embeds `user_yes_no` (src/main.py lines 334-359).  Note line 337: an answer
that is neither `"так"` nor `"ні"` returns without touching
`pending_location`, and line 340 treats an empty pending keyword as absent
(Python truthiness). -/
def user_yes_no (st : BotState) (text_raw : String) : BotState × List Out :=
  let ans := pyLower (pyStrip text_raw)
  if ¬(ans = "так" ∨ ans = "ні") then (st, [])
  else
    match st.pending_location with
    | none => (st, [])
    | some keyword =>
      if keyword = "" then (st, [])
      else if ans = "ні" then
        ({ st with pending_location := none }, [Out.replyDeclined])
      else
        ({ st with pending_location := none },
         [Out.adminProposal keyword, Out.replySentToAdmin])

/-- Embeds `admin_choice` (src/main.py lines 361-385). -/
def admin_choice (st : BotState) (uid adminId : Int) (text_raw : String) :
    BotState × List Out :=
  if uid ≠ adminId then (st, [])
  else
    let text := pyStrip text_raw
    if pyStartsWith "❌ Ігнорувати:" text then (st, [Out.replyRejected])
    else if pyStartsWith "✅ Додати:" text = false then (st, [])
    else
      let keyword := pyStrip (afterFirstColon text)
      ({ st with pending_keyword := some keyword, await_region := true },
       [Out.askRegion keyword])

/-- Embeds `region_selected` (src/main.py lines 387-423).  For a region other than
`"Київська область"` the handler reloads the persisted dictionary, ensures
the region's section exists, writes `data[region][keyword] = region`, saves,
and replaces the in-memory copy. -/
def region_selected (st : BotState) (uid adminId : Int) (text_raw : String) :
    BotState × List Out :=
  if uid ≠ adminId then (st, [])
  else if st.await_region = false then (st, [])
  else
    let region := pyStrip text_raw
    match st.pending_keyword with
    | none => (st, [])
    | some keyword =>
      if keyword = "" ∨ region = "" then (st, [])
      else
        let st1 := { st with await_region := false, chosen_region := some region }
        if region = "Київська область" then
          ({ st1 with await_subregion := true }, [Out.askSubregion keyword])
        else
          let data0 := st.saved_dict
          let data1 := if (locGet data0 region).isNone then locInsert data0 region []
                       else data0
          let sect := (locGet data1 region).getD []
          let data2 := locInsert data1 region (dictInsert sect keyword region)
          ({ st1 with saved_dict := data2, locations_dict := data2,
                      pending_keyword := none, chosen_region := none },
           [Out.replyAdded keyword region])

/-- Embeds `subregion_selected` (src/main.py lines 425-453).  Note line 433: a
reply outside `KYIV_SUBREGIONS` returns silently. -/
def subregion_selected (st : BotState) (uid adminId : Int) (text_raw : String) :
    BotState × List Out :=
  if uid ≠ adminId then (st, [])
  else if st.await_subregion = false then (st, [])
  else
    let subregion := pyStrip text_raw
    if KYIV_SUBREGIONS.contains subregion = false then (st, [])
    else
      match st.pending_keyword with
      | none => (st, [])
      | some keyword =>
        if keyword = "" then (st, [])
        else
          let data0 := st.saved_dict
          let data1 := if (locGet data0 "Київська область").isNone then
                         locInsert data0 "Київська область" []
                       else data0
          let sect := (locGet data1 "Київська область").getD []
          let data2 := locInsert data1 "Київська область"
                         (dictInsert sect keyword subregion)
          ({ st with saved_dict := data2, locations_dict := data2,
                     await_subregion := false, pending_keyword := none,
                     chosen_region := none },
           [Out.replyAdded keyword subregion])

/-- Routing predicate of the `admin_choice` handler's registration regex
`^(✅ Додати: .+|❌ Ігнорувати: .+)$` (src/main.py line 534). -/
def matchesAdminChoice (text : String) : Bool :=
  (pyStartsWith "✅ Додати: " text && decide (text ≠ "✅ Додати: "))
  || (pyStartsWith "❌ Ігнорувати: " text && decide (text ≠ "❌ Ігнорувати: "))

/-- The handler dispatch of `main` (src/main.py lines 516-538): all handlers
are registered in the default group, so the first registered handler whose
filter matches consumes the message.  Command handlers come first, then the
fixed shortcut handlers (whose `(?i)` regexes are substring searches over
the lowercased text), then the dictionary query, the yes/no reply, the admin
confirmation, and the region and subregion selections (whole-string matches
against the fixed lists).  The shortcut and command handlers never touch the
dictionary or conversation state, so they reduce to a tagged reply. -/
def dispatch (st : BotState) (uid adminId : Int) (chatId : Int)
    (text : String) : BotState × List Out :=
  let lower := pyLower text
  if pyStartsWith "/start" text then
    ({ st with chat_id := some chatId }, [Out.replyOther "start"])
  else if pyStartsWith "/stopbot" text then (st, [Out.replyOther "stopbot"])
  else if pyStartsWith "/list_regions" text then
    (st, [Out.replyOther "list_regions"])
  else if pyIn "що по області" lower then (st, [Out.replyOther "oblast"])
  else if pyIn "що по києву" lower then (st, [Out.replyOther "kyiv"])
  else if pyIn "як там крим" lower then (st, [Out.replyOther "krym"])
  else if pyIn "що по одес" lower then (st, [Out.replyOther "odesa"])
  else if pyIn "що по франику" lower || pyIn "що по івано-франківську" lower
       || pyIn "що по франківську" lower then (st, [Out.replyOther "frankivsk"])
  else if pyIn "що по луган" lower then (st, [Out.replyOther "lugansk"])
  else if pyIn "що по черніг" lower then (st, [Out.replyOther "chernihiv"])
  else if pyStartsWith "що по " lower then handle_dynamic_query st text
  else if lower = "так" ∨ lower = "ні" then user_yes_no st text
  else if matchesAdminChoice text then admin_choice st uid adminId text
  else if OBLASTS_ALL.contains text then region_selected st uid adminId text
  else if KYIV_SUBREGIONS.contains text then subregion_selected st uid adminId text
  else (st, [])

/-! ## Support definitions for the claims -/

/-- The notification intents emitted by one call of `process_alerts`. -/
def processOut (net : Option HttpResponse) (cg ck : RegionAlertCache)
    (chat_id : Option Int) (admin_chat : Int) : List Notif :=
  (process_alerts net cg ck chat_id admin_chat).2.2

/-- Recognises a global-scope started-or-changed intent. -/
def isAdminStartedN : Notif → Bool
  | Notif.adminStarted _ _ => true
  | _ => false

/-- Recognises a global-scope ended intent. -/
def isAdminEndedN : Notif → Bool
  | Notif.adminEnded _ => true
  | _ => false

/-- Recognises a Kyiv-scope started-or-changed intent. -/
def isGroupStartedN : Notif → Bool
  | Notif.groupStarted _ _ => true
  | _ => false

/-- Recognises a Kyiv-scope ended intent. -/
def isGroupEndedN : Notif → Bool
  | Notif.groupEnded _ => true
  | _ => false

/-- The initial conversation state of the concrete curation scenarios: the
dictionary file created at startup, holding one empty Kyiv section, and no
conversation in flight.  The admin id is 42, the requesting user 7. -/
def scenarioStart : BotState :=
  { locations_dict := [("Київська область", [])],
    saved_dict := [("Київська область", [])],
    pending_location := none, pending_keyword := none,
    await_region := false, await_subregion := false,
    chosen_region := none, chat_id := none,
    cache_kyiv := { last_alerts := [], initialized := false } }

/-- Scenario: the user asked about the unknown place `irpin2`. -/
def scenarioAsked : BotState := (dispatch scenarioStart 7 42 100 "що по irpin2?").1

/-- Scenario: the user then confirmed with `так`. -/
def scenarioConfirmed : BotState := (dispatch scenarioAsked 7 42 100 "так").1

/-- Scenario: the admin then pressed the add button for `irpin2`. -/
def scenarioAdminAdd : BotState :=
  (dispatch scenarioConfirmed 42 42 100 "✅ Додати: irpin2").1

/-- Scenario: the admin then selected the non-special region
`Одеська область`. -/
def scenarioRegionDone : BotState :=
  (dispatch scenarioAdminAdd 42 42 100 "Одеська область").1

/-- A conversation state awaiting the admin's Kyiv-subregion selection for
the pending keyword `irpin2`. -/
def scenarioAwaitSub : BotState :=
  { scenarioStart with pending_keyword := some "irpin2", await_subregion := true }

/-! ## Helper lemmas: association lists -/

theorem dictGet_insert_self (d : Dict) (k v : String) :
    dictGet (dictInsert d k v) k = some v := by
  induction d with
  | nil => simp [dictInsert, dictGet]
  | cons hd tl ih =>
    obtain ⟨a, b⟩ := hd
    by_cases h : a = k
    · simp [dictInsert, h, dictGet]
    · simp [dictInsert, h, dictGet, ih]

theorem dictGet_insert_other (d : Dict) (k v k' : String) (h : k' ≠ k) :
    dictGet (dictInsert d k v) k' = dictGet d k' := by
  induction d with
  | nil => simp [dictInsert, dictGet, Ne.symm h]
  | cons hd tl ih =>
    obtain ⟨a, b⟩ := hd
    by_cases hak : a = k
    · subst hak
      simp [dictInsert, dictGet, Ne.symm h]
    · simp [dictInsert, hak, dictGet, ih]

theorem locGet_insert_self (d : LocDict) (k : String) (v : Dict) :
    locGet (locInsert d k v) k = some v := by
  induction d with
  | nil => simp [locInsert, locGet]
  | cons hd tl ih =>
    obtain ⟨a, b⟩ := hd
    by_cases h : a = k
    · simp [locInsert, h, locGet]
    · simp [locInsert, h, locGet, ih]

theorem locGet_insert_other (d : LocDict) (k : String) (v : Dict) (k' : String)
    (h : k' ≠ k) : locGet (locInsert d k v) k' = locGet d k' := by
  induction d with
  | nil => simp [locInsert, locGet, Ne.symm h]
  | cons hd tl ih =>
    obtain ⟨a, b⟩ := hd
    by_cases hak : a = k
    · subst hak
      simp [locInsert, locGet, Ne.symm h]
    · simp [locInsert, hak, locGet, ih]

theorem dictKeys_cons (a b : String) (tl : Dict) :
    dictKeys ((a, b) :: tl) = a :: dictKeys tl := rfl

theorem dictKeys_insert (d : Dict) (k v : String) :
    dictKeys (dictInsert d k v) =
      if k ∈ dictKeys d then dictKeys d else dictKeys d ++ [k] := by
  induction d with
  | nil => simp [dictInsert, dictKeys]
  | cons hd tl ih =>
    obtain ⟨a, b⟩ := hd
    by_cases h : a = k
    · subst h
      have : dictInsert ((a, b) :: tl) a v = (a, v) :: tl := by
        simp [dictInsert]
      rw [this, dictKeys_cons, dictKeys_cons,
        if_pos (List.mem_cons.mpr (Or.inl rfl))]
    · have hcons : dictInsert ((a, b) :: tl) k v = (a, b) :: dictInsert tl k v := by
        simp [dictInsert, h]
      rw [hcons, dictKeys_cons, ih, dictKeys_cons]
      by_cases hm : k ∈ dictKeys tl
      · rw [if_pos hm, if_pos (List.mem_cons.mpr (Or.inr hm))]
      · rw [if_neg hm, if_neg (by simp [List.mem_cons, Ne.symm h, hm]),
          List.cons_append]

theorem NodupKeys_insert {d : Dict} (hd : NodupKeys d) (k v : String) :
    NodupKeys (dictInsert d k v) := by
  unfold NodupKeys at *
  rw [dictKeys_insert]
  by_cases hm : k ∈ dictKeys d
  · simpa [hm] using hd
  · simp [hm, List.nodup_append, hd]

theorem NodupKeys_buildDict (ps : List (String × String)) :
    NodupKeys (buildDict ps) := by
  have h : ∀ acc : Dict, NodupKeys acc →
      NodupKeys (ps.foldl (fun d p => dictInsert d p.1 p.2) acc) := by
    induction ps with
    | nil => intro acc hacc; simpa using hacc
    | cons p tl ih =>
      intro acc hacc
      simpa using ih (dictInsert acc p.1 p.2) (NodupKeys_insert hacc p.1 p.2)
  exact h [] (by simp [NodupKeys, dictKeys])

theorem dictGet_eq_some_of_mem :
    ∀ {d : Dict}, NodupKeys d → ∀ {t v : String}, (t, v) ∈ d →
      dictGet d t = some v := by
  intro d
  induction d with
  | nil => intro _ t v h; simp at h
  | cons hd tl ih =>
    obtain ⟨a, b⟩ := hd
    intro hnd t v h
    have hnd' : a ∉ dictKeys tl ∧ (dictKeys tl).Nodup := by
      simpa [NodupKeys, dictKeys] using hnd
    rcases List.mem_cons.mp h with heq | htl
    · obtain ⟨h1, h2⟩ := Prod.mk.injEq .. ▸ heq
      simp [dictGet, h1.symm, h2]
    · have hat : a ≠ t := by
        intro hat
        subst hat
        exact hnd'.1 (List.mem_map.mpr ⟨(a, v), htl, rfl⟩)
      simp [dictGet, hat, ih hnd'.2 htl]

theorem mem_keys_of_mem {d : Dict} {p : String × String} (h : p ∈ d) :
    p.1 ∈ dictKeys d :=
  List.mem_map.mpr ⟨p, h, rfl⟩

/-! ## Helper lemmas: counting and filtering notification blocks -/

theorem count_filterMap_zero {α : Type} (l : List α) (f : α → Option Notif)
    (n : Notif) (h : ∀ a ∈ l, ∀ b, f a = some b → b ≠ n) :
    (l.filterMap f).count n = 0 := by
  rw [List.count_eq_zero]
  intro hmem
  rcases List.mem_filterMap.mp hmem with ⟨a, ha, hfa⟩
  exact h a ha n hfa rfl

theorem filter_filterMap_all {α : Type} (l : List α) (f : α → Option Notif)
    (q : Notif → Bool) (h : ∀ a b, f a = some b → q b = true) :
    (l.filterMap f).filter q = l.filterMap f := by
  induction l with
  | nil => rfl
  | cons a tl ih =>
    cases hfa : f a with
    | none => simp [List.filterMap_cons, hfa, ih]
    | some b => simp [List.filterMap_cons, hfa, List.filter_cons, h a b hfa, ih]

theorem filter_filterMap_none {α : Type} (l : List α) (f : α → Option Notif)
    (q : Notif → Bool) (h : ∀ a b, f a = some b → q b = false) :
    (l.filterMap f).filter q = [] := by
  induction l with
  | nil => rfl
  | cons a tl ih =>
    cases hfa : f a with
    | none => simp [List.filterMap_cons, hfa, ih]
    | some b => simp [List.filterMap_cons, hfa, List.filter_cons, h a b hfa, ih]

/-- Count of a two-argument event in a diff block built from a dictionary
with distinct keys: the event for `(t, k)` occurs once when the dictionary
maps `t` to `k` and the emission condition holds at `(t, k)`, else never. -/
theorem count_pairBlock (mk : String → String → Notif)
    (hinj : ∀ a b c d, mk a b = mk c d → a = c ∧ b = d)
    (P : String → String → Prop) [∀ a b, Decidable (P a b)] (t k : String) :
    ∀ d : Dict, NodupKeys d →
      ((d.filterMap fun p => if P p.1 p.2 then some (mk p.1 p.2) else none).count
        (mk t k)) = if dictGet d t = some k ∧ P t k then 1 else 0 := by
  intro d
  induction d with
  | nil => intro _; simp [dictGet]
  | cons hd tl ih =>
    obtain ⟨a, b⟩ := hd
    intro hnd
    have hnd' : a ∉ dictKeys tl ∧ (dictKeys tl).Nodup := by
      simpa [NodupKeys, dictKeys] using hnd
    by_cases hat : a = t
    · subst hat
      have htail : (tl.filterMap fun p =>
          if P p.1 p.2 then some (mk p.1 p.2) else none).count (mk a k) = 0 := by
        apply count_filterMap_zero
        intro p hp n hpn hne
        have : mk p.1 p.2 = n := by
          by_cases hP : P p.1 p.2
          · simpa [hP] using hpn
          · simp [hP] at hpn
        subst hne
        have h1 := (hinj _ _ _ _ this).1
        exact hnd'.1 (h1 ▸ mem_keys_of_mem hp)
      by_cases hbk : b = k
      · subst hbk
        by_cases hP : P a b
        · simp [List.filterMap_cons, hP, dictGet, List.count_cons, htail]
        · simp [List.filterMap_cons, hP, dictGet, htail]
      · by_cases hP : P a b
        · have hne : mk a b ≠ mk a k := fun he => hbk (hinj _ _ _ _ he).2
          simp [List.filterMap_cons, hP, dictGet, List.count_cons, hne, htail, hbk]
        · simp [List.filterMap_cons, hP, dictGet, htail, hbk]
    · have hrec := ih hnd'.2
      by_cases hP : P a b
      · have hne : mk a b ≠ mk t k := fun he => hat (hinj _ _ _ _ he).1
        simp [List.filterMap_cons, hP, dictGet, hat, List.count_cons, hne, hrec]
      · simp [List.filterMap_cons, hP, dictGet, hat, hrec]

/-- Count of a one-argument event in an "ended" block built from a
dictionary with distinct keys, when the emission condition depends only on
the key. -/
theorem count_keyBlock (mk : String → Notif)
    (hinj : ∀ a b, mk a = mk b → a = b)
    (P : String → Prop) [DecidablePred P] (t : String) :
    ∀ d : Dict, NodupKeys d →
      ((d.filterMap fun p => if P p.1 then some (mk p.1) else none).count (mk t))
        = if t ∈ dictKeys d ∧ P t then 1 else 0 := by
  intro d
  induction d with
  | nil => intro _; simp [dictKeys]
  | cons hd tl ih =>
    obtain ⟨a, b⟩ := hd
    intro hnd
    have hnd' : a ∉ dictKeys tl ∧ (dictKeys tl).Nodup := by
      simpa [NodupKeys, dictKeys_cons, List.nodup_cons] using hnd
    have hrec := ih hnd'.2
    rw [dictKeys_cons]
    by_cases hat : a = t
    · subst hat
      have htail : (tl.filterMap fun p =>
          if P p.1 then some (mk p.1) else none).count (mk a) = 0 := by
        apply count_filterMap_zero
        intro p hp n hpn hne
        have hmk : mk p.1 = n := by
          by_cases hPp : P p.1
          · simpa [hPp] using hpn
          · simp [hPp] at hpn
        subst hne
        exact hnd'.1 ((hinj _ _ hmk) ▸ mem_keys_of_mem hp)
      have hcond : a ∈ a :: dictKeys tl := List.mem_cons.mpr (Or.inl rfl)
      by_cases hP : P a
      · rw [if_pos ⟨hcond, hP⟩]
        simp [List.filterMap_cons, hP, List.count_cons, htail]
      · rw [if_neg (fun hc => hP hc.2)]
        simp [List.filterMap_cons, hP, htail]
    · have hiff : (t ∈ a :: dictKeys tl ∧ P t) ↔ (t ∈ dictKeys tl ∧ P t) := by
        simp [List.mem_cons, Ne.symm hat]
      rw [if_congr hiff rfl rfl]
      by_cases hP : P a
      · have hne : mk a ≠ mk t := fun he => hat (hinj _ _ he)
        simp [List.filterMap_cons, hP, List.count_cons, hne, hrec]
      · simp [List.filterMap_cons, hP, hrec]

/-! ## Helper lemmas: reducing `process_alerts` -/

/-- On a parsed response, a tick with both caches initialized replaces both
remembered states and emits `tick_events`. -/
theorem process_alerts_tracking (s : Nat) (alerts : List AlertRecord)
    (cg ck : RegionAlertCache) (c : Option Int) (a : Int)
    (h1 : cg.initialized = true) (h2 : ck.initialized = true) :
    process_alerts (some ⟨s, true, alerts⟩) cg ck c a =
      ({ cg with last_alerts := new_state_global alerts },
       { ck with last_alerts := new_state_kyiv alerts },
       tick_events cg.last_alerts ck.last_alerts (new_state_global alerts)
         (new_state_kyiv alerts) c a) := by
  simp [process_alerts, get_api_data, h1, h2]

/-- On a parsed response, a cold-start tick snapshots both caches and emits
nothing. -/
theorem process_alerts_cold (s : Nat) (alerts : List AlertRecord)
    (cg ck : RegionAlertCache) (c : Option Int) (a : Int)
    (h1 : cg.initialized = false) (h2 : ck.initialized = false) :
    process_alerts (some ⟨s, true, alerts⟩) cg ck c a =
      ({ last_alerts := new_state_global alerts, initialized := true },
       { last_alerts := new_state_kyiv alerts, initialized := true }, []) := by
  simp [process_alerts, get_api_data, h1, h2]

/-- An `if` that produced a value must have produced its then-value. -/
theorem of_if_some {c : Prop} [Decidable c] {x n : Notif}
    (h : (if c then some x else none) = some n) : n = x := by
  by_cases hc : c
  · simp [hc] at h
    exact h.symm
  · simp [hc] at h

/-- Count of Kyiv started-or-changed intents in one TRACKING tick. -/
theorem tick_count_groupStarted (oldG oldK nsg nsk : Dict) (c : Option Int)
    (a : Int) (hnd : NodupKeys nsk) (hc : truthyOpt c = true) (t k : String) :
    (tick_events oldG oldK nsg nsk c a).count (Notif.groupStarted t k)
      = if dictGet nsk t = some k ∧ dictGet oldK t ≠ some k then 1 else 0 := by
  unfold tick_events
  have hA : (nsg.filterMap fun p =>
      if dictGet oldG p.1 ≠ some p.2 ∧ a ≠ 0 then
        some (Notif.adminStarted p.1 p.2) else none).count
      (Notif.groupStarted t k) = 0 := by
    apply count_filterMap_zero
    intro p _ b hb
    have hbx := of_if_some hb
    subst hbx
    simp
  have hB : (oldG.filterMap fun p =>
      if dictGet nsg p.1 = none ∧ a ≠ 0 then
        some (Notif.adminEnded p.1) else none).count
      (Notif.groupStarted t k) = 0 := by
    apply count_filterMap_zero
    intro p _ b hb
    have hbx := of_if_some hb
    subst hbx
    simp
  have hC : (nsk.filterMap fun p =>
      if dictGet oldK p.1 ≠ some p.2 ∧ truthyOpt c = true then
        some (Notif.groupStarted p.1 p.2) else none).count
      (Notif.groupStarted t k)
      = if dictGet nsk t = some k ∧ dictGet oldK t ≠ some k then 1 else 0 := by
    rw [count_pairBlock Notif.groupStarted
      (by intro x y z w hxy; injection hxy with e1 e2; exact ⟨e1, e2⟩)
      (fun x y => dictGet oldK x ≠ some y ∧ truthyOpt c = true) t k nsk hnd]
    simp [hc]
  have hD : (oldK.filterMap fun p =>
      if dictGet nsk p.1 = none ∧ truthyOpt c = true then
        some (Notif.groupEnded p.1) else none).count
      (Notif.groupStarted t k) = 0 := by
    apply count_filterMap_zero
    intro p _ b hb
    have hbx := of_if_some hb
    subst hbx
    simp
  have hE : ((if oldK ≠ [] ∧ nsk = [] ∧ truthyOpt c = true then
      [Notif.groupCleared] else []) : List Notif).count
      (Notif.groupStarted t k) = 0 := by
    by_cases hcond : oldK ≠ [] ∧ nsk = [] ∧ truthyOpt c = true <;> simp [hcond]
  simp only [List.count_append, hA, hB, hC, hD, hE]
  omega

/-- Count of global started-or-changed intents in one TRACKING tick. -/
theorem tick_count_adminStarted (oldG oldK nsg nsk : Dict) (c : Option Int)
    (a : Int) (hnd : NodupKeys nsg) (ha : a ≠ 0) (t k : String) :
    (tick_events oldG oldK nsg nsk c a).count (Notif.adminStarted t k)
      = if dictGet nsg t = some k ∧ dictGet oldG t ≠ some k then 1 else 0 := by
  unfold tick_events
  have hA : (nsg.filterMap fun p =>
      if dictGet oldG p.1 ≠ some p.2 ∧ a ≠ 0 then
        some (Notif.adminStarted p.1 p.2) else none).count
      (Notif.adminStarted t k)
      = if dictGet nsg t = some k ∧ dictGet oldG t ≠ some k then 1 else 0 := by
    rw [count_pairBlock Notif.adminStarted
      (by intro x y z w hxy; injection hxy with e1 e2; exact ⟨e1, e2⟩)
      (fun x y => dictGet oldG x ≠ some y ∧ a ≠ 0) t k nsg hnd]
    simp [ha]
  have hB : (oldG.filterMap fun p =>
      if dictGet nsg p.1 = none ∧ a ≠ 0 then
        some (Notif.adminEnded p.1) else none).count
      (Notif.adminStarted t k) = 0 := by
    apply count_filterMap_zero
    intro p _ b hb
    have hbx := of_if_some hb
    subst hbx
    simp
  have hC : (nsk.filterMap fun p =>
      if dictGet oldK p.1 ≠ some p.2 ∧ truthyOpt c = true then
        some (Notif.groupStarted p.1 p.2) else none).count
      (Notif.adminStarted t k) = 0 := by
    apply count_filterMap_zero
    intro p _ b hb
    have hbx := of_if_some hb
    subst hbx
    simp
  have hD : (oldK.filterMap fun p =>
      if dictGet nsk p.1 = none ∧ truthyOpt c = true then
        some (Notif.groupEnded p.1) else none).count
      (Notif.adminStarted t k) = 0 := by
    apply count_filterMap_zero
    intro p _ b hb
    have hbx := of_if_some hb
    subst hbx
    simp
  have hE : ((if oldK ≠ [] ∧ nsk = [] ∧ truthyOpt c = true then
      [Notif.groupCleared] else []) : List Notif).count
      (Notif.adminStarted t k) = 0 := by
    by_cases hcond : oldK ≠ [] ∧ nsk = [] ∧ truthyOpt c = true <;> simp [hcond]
  simp only [List.count_append, hA, hB, hC, hD, hE]
  omega

/-- Count of the Kyiv scope-wide all-clear intent in one TRACKING tick. -/
theorem tick_count_cleared (oldG oldK nsg nsk : Dict) (c : Option Int)
    (a : Int) :
    (tick_events oldG oldK nsg nsk c a).count Notif.groupCleared
      = if oldK ≠ [] ∧ nsk = [] ∧ truthyOpt c = true then 1 else 0 := by
  unfold tick_events
  have hA : (nsg.filterMap fun p =>
      if dictGet oldG p.1 ≠ some p.2 ∧ a ≠ 0 then
        some (Notif.adminStarted p.1 p.2) else none).count
      Notif.groupCleared = 0 := by
    apply count_filterMap_zero
    intro p _ b hb
    have hbx := of_if_some hb
    subst hbx
    simp
  have hB : (oldG.filterMap fun p =>
      if dictGet nsg p.1 = none ∧ a ≠ 0 then
        some (Notif.adminEnded p.1) else none).count Notif.groupCleared = 0 := by
    apply count_filterMap_zero
    intro p _ b hb
    have hbx := of_if_some hb
    subst hbx
    simp
  have hC : (nsk.filterMap fun p =>
      if dictGet oldK p.1 ≠ some p.2 ∧ truthyOpt c = true then
        some (Notif.groupStarted p.1 p.2) else none).count
      Notif.groupCleared = 0 := by
    apply count_filterMap_zero
    intro p _ b hb
    have hbx := of_if_some hb
    subst hbx
    simp
  have hD : (oldK.filterMap fun p =>
      if dictGet nsk p.1 = none ∧ truthyOpt c = true then
        some (Notif.groupEnded p.1) else none).count Notif.groupCleared = 0 := by
    apply count_filterMap_zero
    intro p _ b hb
    have hbx := of_if_some hb
    subst hbx
    simp
  have hE : ((if oldK ≠ [] ∧ nsk = [] ∧ truthyOpt c = true then
      [Notif.groupCleared] else []) : List Notif).count Notif.groupCleared
      = if oldK ≠ [] ∧ nsk = [] ∧ truthyOpt c = true then 1 else 0 := by
    by_cases hcond : oldK ≠ [] ∧ nsk = [] ∧ truthyOpt c = true <;> simp [hcond]
  simp only [List.count_append, hA, hB, hC, hD, hE]
  omega

/-- Count of a title's Kyiv ended intent in a TRACKING tick whose new Kyiv
state is empty: one per remembered title. -/
theorem tick_count_groupEnded (oldG oldK nsg : Dict) (c : Option Int)
    (a : Int) (hnd : NodupKeys oldK) (hc : truthyOpt c = true) (t : String)
    (hmem : t ∈ dictKeys oldK) :
    (tick_events oldG oldK nsg [] c a).count (Notif.groupEnded t) = 1 := by
  unfold tick_events
  have hA : (nsg.filterMap fun p =>
      if dictGet oldG p.1 ≠ some p.2 ∧ a ≠ 0 then
        some (Notif.adminStarted p.1 p.2) else none).count
      (Notif.groupEnded t) = 0 := by
    apply count_filterMap_zero
    intro p _ b hb
    have hbx := of_if_some hb
    subst hbx
    simp
  have hB : (oldG.filterMap fun p =>
      if dictGet nsg p.1 = none ∧ a ≠ 0 then
        some (Notif.adminEnded p.1) else none).count (Notif.groupEnded t) = 0 := by
    apply count_filterMap_zero
    intro p _ b hb
    have hbx := of_if_some hb
    subst hbx
    simp
  have hC : (([] : Dict).filterMap fun p =>
      if dictGet oldK p.1 ≠ some p.2 ∧ truthyOpt c = true then
        some (Notif.groupStarted p.1 p.2) else none).count
      (Notif.groupEnded t) = 0 := by
    simp
  have hD : (oldK.filterMap fun p =>
      if dictGet ([] : Dict) p.1 = none ∧ truthyOpt c = true then
        some (Notif.groupEnded p.1) else none).count (Notif.groupEnded t) = 1 := by
    rw [count_keyBlock Notif.groupEnded
      (fun x y hxy => Notif.groupEnded.inj hxy)
      (fun x => dictGet ([] : Dict) x = none ∧ truthyOpt c = true) t oldK hnd]
    simp [hmem, dictGet, hc]
  simp only [List.count_append, hA, hB, hC, hD]
  split <;> simp

/-- The intents of one TRACKING tick decompose into the five phases in
emission order: global started, global ended, Kyiv started, Kyiv ended, and
the optional Kyiv all-clear. -/
theorem tick_phase_order (oldG oldK nsg nsk : Dict) (c : Option Int)
    (a : Int) :
    ∃ ga ge ks ke cl : List Notif,
      tick_events oldG oldK nsg nsk c a = ga ++ ge ++ ks ++ ke ++ cl
      ∧ (∀ x ∈ ga, isAdminStartedN x = true)
      ∧ (∀ x ∈ ge, isAdminEndedN x = true)
      ∧ (∀ x ∈ ks, isGroupStartedN x = true)
      ∧ (∀ x ∈ ke, isGroupEndedN x = true)
      ∧ (∀ x ∈ cl, x = Notif.groupCleared) := by
  refine ⟨_, _, _, _, _, rfl, ?_, ?_, ?_, ?_, ?_⟩
  · intro x hx
    rcases List.mem_filterMap.mp hx with ⟨p, _, hpe⟩
    have hbx := of_if_some hpe
    subst hbx
    rfl
  · intro x hx
    rcases List.mem_filterMap.mp hx with ⟨p, _, hpe⟩
    have hbx := of_if_some hpe
    subst hbx
    rfl
  · intro x hx
    rcases List.mem_filterMap.mp hx with ⟨p, _, hpe⟩
    have hbx := of_if_some hpe
    subst hbx
    rfl
  · intro x hx
    rcases List.mem_filterMap.mp hx with ⟨p, _, hpe⟩
    have hbx := of_if_some hpe
    subst hbx
    rfl
  · intro x hx
    by_cases hcond : oldK ≠ [] ∧ nsk = [] ∧ truthyOpt c = true
    · simp [hcond] at hx
      exact hx
    · simp [hcond] at hx

/-- A predicate that is false on every finished record cannot distinguish a
list from its restriction to unfinished records. -/
theorem any_filter_finished (f : AlertRecord → Bool)
    (hf : ∀ a : AlertRecord, a.finished_at ≠ none → f a = false) :
    ∀ l : List AlertRecord,
      l.any f = (l.filter fun a => a.finished_at = none).any f := by
  intro l
  induction l with
  | nil => rfl
  | cons a tl ih =>
    by_cases hfin : a.finished_at = none
    · simp [List.any_cons, List.filter_cons, hfin, ih]
    · simp [List.any_cons, List.filter_cons, hfin, hf a hfin, ih]

/-! ## Helper lemmas: message handlers -/

/-- The dictionary query handler never touches either dictionary copy. -/
theorem handle_dynamic_query_preserves (st : BotState) (text : String) :
    (handle_dynamic_query st text).1.locations_dict = st.locations_dict
    ∧ (handle_dynamic_query st text).1.saved_dict = st.saved_dict := by
  unfold handle_dynamic_query
  dsimp only
  repeat' split
  all_goals exact ⟨rfl, rfl⟩

/-- The yes/no handler never touches either dictionary copy. -/
theorem user_yes_no_preserves (st : BotState) (text : String) :
    (user_yes_no st text).1.locations_dict = st.locations_dict
    ∧ (user_yes_no st text).1.saved_dict = st.saved_dict := by
  unfold user_yes_no
  dsimp only
  repeat' split
  all_goals exact ⟨rfl, rfl⟩

/-- The handler `admin_choice` returns immediately for a non-admin author. -/
theorem admin_choice_nonadmin (st : BotState) (uid aid : Int) (text : String)
    (h : uid ≠ aid) : admin_choice st uid aid text = (st, []) := by
  unfold admin_choice
  rw [if_pos h]

/-- The handler `region_selected` returns immediately for a non-admin author. -/
theorem region_selected_nonadmin (st : BotState) (uid aid : Int)
    (text : String) (h : uid ≠ aid) :
    region_selected st uid aid text = (st, []) := by
  unfold region_selected
  rw [if_pos h]

/-- The handler `subregion_selected` returns immediately for a non-admin author. -/
theorem subregion_selected_nonadmin (st : BotState) (uid aid : Int)
    (text : String) (h : uid ≠ aid) :
    subregion_selected st uid aid text = (st, []) := by
  unfold subregion_selected
  rw [if_pos h]

/-! ## Claim theorems -/

/-- C1: on the first reconciliation tick after process start (both scope
caches still uninitialized) `process_alerts` emits no notification intent
at all, whatever the snapshot contains; it only records the snapshot into
both caches and sets both `initialized` flags — and once both flags are
true, every later tick (including failing fetches) leaves them true. -/
theorem C1_cold_start_suppression :
    (∀ (s : Nat) (alerts : List AlertRecord) (cg ck : RegionAlertCache)
        (c : Option Int) (a : Int),
        cg.initialized = false → ck.initialized = false →
        process_alerts (some ⟨s, true, alerts⟩) cg ck c a =
          ({ last_alerts := new_state_global alerts, initialized := true },
           { last_alerts := new_state_kyiv alerts, initialized := true }, []))
    ∧ (∀ (net : Option HttpResponse) (cg ck : RegionAlertCache)
        (c : Option Int) (a : Int),
        cg.initialized = true → ck.initialized = true →
        (process_alerts net cg ck c a).1.initialized = true
        ∧ (process_alerts net cg ck c a).2.1.initialized = true) := by
  constructor
  · intro s alerts cg ck c a h1 h2
    exact process_alerts_cold s alerts cg ck c a h1 h2
  · intro net cg ck c a h1 h2
    match net with
    | none => simpa [process_alerts, get_api_data] using ⟨h1, h2⟩
    | some r =>
      by_cases hb : r.body_parses_as_json
      · simp [process_alerts, get_api_data, hb, h1, h2]
      · simp [process_alerts, get_api_data, hb, h1, h2]

/-- Witness for C1: a first tick over a snapshot with one active Kyiv alert
emits nothing and snapshots both caches. -/
theorem C1_cold_start_suppression_witness :
    process_alerts
        (some ⟨200, true,
          [⟨"Київська область", "Бучанський район", "air_raid", none⟩]⟩)
        ⟨[], false⟩ ⟨[], false⟩ (some 5) 7 =
      ({ last_alerts := [("Київська область::Бучанський район", "air_raid")],
         initialized := true },
       { last_alerts := [("Бучанський район", "air_raid")],
         initialized := true }, []) := by
  rw [C1_cold_start_suppression.1 200
    [⟨"Київська область", "Бучанський район", "air_raid", none⟩]
    ⟨[], false⟩ ⟨[], false⟩ (some 5) 7 rfl rfl]
  rfl

/-- C2: the claim (any fetch failure — network error, timeout, non-2xx, or
malformed body — short-circuits a TRACKING tick with no events and
unchanged caches) matches the code only for fetches that raise.  A network
error, timeout, or non-JSON body raises out of the tick before any cache
mutation (first two conjuncts), but the code never inspects the HTTP
status: a non-2xx response whose body parses as JSON is processed as a
successful fetch, and when it carries no alerts the tick fabricates ended
events and a scope-wide all-clear and wipes both caches (third conjunct:
an HTTP 500 JSON response during an active Kyiv alert). -/
theorem C2_fetch_failure_short_circuit :
    (∀ (cg ck : RegionAlertCache) (c : Option Int) (a : Int),
        process_alerts none cg ck c a = (cg, ck, []))
    ∧ (∀ (s : Nat) (l : List AlertRecord) (cg ck : RegionAlertCache)
        (c : Option Int) (a : Int),
        process_alerts (some ⟨s, false, l⟩) cg ck c a = (cg, ck, []))
    ∧ process_alerts (some ⟨500, true, []⟩)
        ⟨[("Київська область::Бучанський район", "air_raid")], true⟩
        ⟨[("Бучанський район", "air_raid")], true⟩ (some 5) 7 =
      (⟨[], true⟩, ⟨[], true⟩,
       [Notif.adminEnded "Київська область::Бучанський район",
        Notif.groupEnded "Бучанський район", Notif.groupCleared]) := by
  refine ⟨fun cg ck c a => rfl, fun s l cg ck c a => rfl, ?_⟩
  rfl

/-- C10: the reconciliation states are built from every fetched record —
changing the `finished_at` fields changes neither scope's new state (first
conjunct), so a record the feed already marks finished still counts as
active for the diff and can fire a started intent (third conjunct); only
the ad-hoc containment check of the shortcut handlers skips finished
records (second conjunct: it equals itself restricted to unfinished
records; fourth and fifth conjuncts: the same matching record is ignored
when finished and found when not). -/
theorem C10_finished_at_only_in_containment :
    (∀ (alerts : List AlertRecord) (f : AlertRecord → Option String),
        new_state_global (alerts.map fun a => { a with finished_at := f a })
          = new_state_global alerts
        ∧ new_state_kyiv (alerts.map fun a => { a with finished_at := f a })
          = new_state_kyiv alerts)
    ∧ (∀ (kw : String) (alerts : List AlertRecord),
        region_status_contains kw alerts
          = region_status_contains kw
              (alerts.filter fun a => a.finished_at = none))
    ∧ process_alerts
        (some ⟨200, true,
          [⟨"Київська область", "Bucha Raion", "air_raid",
            some "2024-01-01T03:00:00+02:00"⟩]⟩)
        ⟨[], true⟩ ⟨[], true⟩ (some 5) 7 =
      (⟨[("Київська область::Bucha Raion", "air_raid")], true⟩,
       ⟨[("Bucha Raion", "air_raid")], true⟩,
       [Notif.adminStarted "Київська область::Bucha Raion" "air_raid",
        Notif.groupStarted "Bucha Raion" "air_raid"])
    ∧ region_status_contains "buch"
        [⟨"Київська область", "Bucha Raion", "air_raid",
          some "2024-01-01T03:00:00+02:00"⟩] = false
    ∧ region_status_contains "buch"
        [⟨"Київська область", "Bucha Raion", "air_raid", none⟩] = true := by
  refine ⟨?_, ?_, rfl, rfl, rfl⟩
  · intro alerts f
    constructor
    · simp only [new_state_global, List.map_map]
      rfl
    · simp only [new_state_kyiv, relevant_kyiv, List.filter_map, List.map_map]
      rfl
  · intro kw alerts
    exact any_filter_finished _ (by intro a ha; simp [ha]) alerts

/-- C3: while TRACKING (both caches initialized) and with both
destinations configured, a started/changed intent for a title is emitted
exactly when the title's kind in the tick's new state differs from its
remembered kind — once, never more — in both scopes; and a tick re-run on
the just-recorded state emits no Kyiv started intent, so a kind repeated
over consecutive ticks fires exactly once, on the transition into it. -/
theorem C3_edge_triggering :
    ∀ (s : Nat) (alerts : List AlertRecord) (cg ck : RegionAlertCache)
      (c : Option Int) (a : Int) (t k : String),
      cg.initialized = true → ck.initialized = true →
      truthyOpt c = true → a ≠ 0 →
      (processOut (some ⟨s, true, alerts⟩) cg ck c a).count
          (Notif.groupStarted t k)
        = (if dictGet (new_state_kyiv alerts) t = some k
              ∧ dictGet ck.last_alerts t ≠ some k then 1 else 0)
      ∧ (processOut (some ⟨s, true, alerts⟩) cg ck c a).count
          (Notif.adminStarted t k)
        = (if dictGet (new_state_global alerts) t = some k
              ∧ dictGet cg.last_alerts t ≠ some k then 1 else 0)
      ∧ (processOut (some ⟨s, true, alerts⟩)
            ⟨new_state_global alerts, true⟩
            ⟨new_state_kyiv alerts, true⟩ c a).count
          (Notif.groupStarted t k) = 0 := by
  intro s alerts cg ck c a t k h1 h2 hc ha
  have hred : processOut (some ⟨s, true, alerts⟩) cg ck c a =
      tick_events cg.last_alerts ck.last_alerts (new_state_global alerts)
        (new_state_kyiv alerts) c a := by
    unfold processOut
    rw [process_alerts_tracking s alerts cg ck c a h1 h2]
  have hndk : NodupKeys (new_state_kyiv alerts) := NodupKeys_buildDict _
  have hndg : NodupKeys (new_state_global alerts) := NodupKeys_buildDict _
  refine ⟨?_, ?_, ?_⟩
  · rw [hred, tick_count_groupStarted cg.last_alerts ck.last_alerts
      (new_state_global alerts) (new_state_kyiv alerts) c a hndk hc t k]
  · rw [hred, tick_count_adminStarted cg.last_alerts ck.last_alerts
      (new_state_global alerts) (new_state_kyiv alerts) c a hndg ha t k]
  · have hred2 : processOut (some ⟨s, true, alerts⟩)
        ⟨new_state_global alerts, true⟩ ⟨new_state_kyiv alerts, true⟩ c a =
        tick_events (new_state_global alerts) (new_state_kyiv alerts)
          (new_state_global alerts) (new_state_kyiv alerts) c a := by
      unfold processOut
      rw [process_alerts_tracking s alerts _ _ c a rfl rfl]
    rw [hred2, tick_count_groupStarted (new_state_global alerts)
      (new_state_kyiv alerts) (new_state_global alerts)
      (new_state_kyiv alerts) c a hndk hc t k]
    exact if_neg (fun h => h.2 h.1)

/-- Witness for C3: after an empty tracked state, a Kyiv alert snapshot
fires the Kyiv started intent exactly once. -/
theorem C3_edge_triggering_witness :
    (processOut
        (some ⟨200, true,
          [⟨"Київська область", "Бучанський район", "air_raid", none⟩]⟩)
        ⟨[], true⟩ ⟨[], true⟩ (some 5) 7).count
      (Notif.groupStarted "Бучанський район" "air_raid") = 1 := by
  rw [(C3_edge_triggering 200
    [⟨"Київська область", "Бучанський район", "air_raid", none⟩]
    ⟨[], true⟩ ⟨[], true⟩ (some 5) 7 "Бучанський район" "air_raid"
    rfl rfl rfl (by decide)).1]
  rfl

/-- C4 counterexample: the claim promises every scope a scope-cleared
intent when its remembered state empties.  Here the global scope's
remembered state is non-empty and its new state empty, yet the tick emits
only the per-title admin ended intent and no scope-cleared intent at all
(the all-clear exists only for the Kyiv scope, src/main.py lines 229-232). -/
theorem C4_counterexample_global_no_cleared :
    process_alerts (some ⟨200, true, []⟩)
        ⟨[("Одеська область::Одеса", "air_raid")], true⟩ ⟨[], true⟩
        (some 5) 7 =
      (⟨[], true⟩, ⟨[], true⟩, [Notif.adminEnded "Одеська область::Одеса"])
    ∧ (processOut (some ⟨200, true, []⟩)
        ⟨[("Одеська область::Одеса", "air_raid")], true⟩ ⟨[], true⟩
        (some 5) 7).count Notif.groupCleared = 0 :=
  ⟨rfl, rfl⟩

/-- C4 (amended): while TRACKING, the tick's intents decompose in emission
order into global started, global ended, Kyiv started, Kyiv ended, then
the optional all-clear — so within each scope started precedes ended,
which precedes the scope-cleared intent; exactly one scope-cleared intent
is emitted precisely when the KYIV scope's remembered state is non-empty,
its new state empty, and the group chat configured (the global scope never
gets one); and in that situation each remembered Kyiv title gets exactly
one ended intent. -/
theorem C4_end_detection_amended :
    ∀ (s : Nat) (alerts : List AlertRecord) (cg ck : RegionAlertCache)
      (c : Option Int) (a : Int),
      cg.initialized = true → ck.initialized = true →
      (∃ ga ge ks ke cl : List Notif,
        processOut (some ⟨s, true, alerts⟩) cg ck c a
          = ga ++ ge ++ ks ++ ke ++ cl
        ∧ (∀ x ∈ ga, isAdminStartedN x = true)
        ∧ (∀ x ∈ ge, isAdminEndedN x = true)
        ∧ (∀ x ∈ ks, isGroupStartedN x = true)
        ∧ (∀ x ∈ ke, isGroupEndedN x = true)
        ∧ (∀ x ∈ cl, x = Notif.groupCleared))
      ∧ ((processOut (some ⟨s, true, alerts⟩) cg ck c a).count
            Notif.groupCleared
          = if ck.last_alerts ≠ [] ∧ new_state_kyiv alerts = []
               ∧ truthyOpt c = true then 1 else 0)
      ∧ (NodupKeys ck.last_alerts → new_state_kyiv alerts = [] →
          truthyOpt c = true →
          ∀ t ∈ dictKeys ck.last_alerts,
            (processOut (some ⟨s, true, alerts⟩) cg ck c a).count
              (Notif.groupEnded t) = 1) := by
  intro s alerts cg ck c a h1 h2
  have hred : processOut (some ⟨s, true, alerts⟩) cg ck c a =
      tick_events cg.last_alerts ck.last_alerts (new_state_global alerts)
        (new_state_kyiv alerts) c a := by
    unfold processOut
    rw [process_alerts_tracking s alerts cg ck c a h1 h2]
  refine ⟨?_, ?_, ?_⟩
  · rw [hred]
    exact tick_phase_order _ _ _ _ c a
  · rw [hred, tick_count_cleared]
  · intro hnd hempty hc t hmem
    rw [hred, hempty]
    exact tick_count_groupEnded _ _ _ c a hnd hc t hmem

/-- C5 counterexample: with the alias order `buchansky → A`, `bucha → B`,
the exact query `bucha` returns `A` — the earlier alias wins by the
substring rule even though a later alias matches exactly, because the loop
applies both rules per alias in iteration order rather than trying exact
matches across the whole dictionary first. -/
theorem C5_counterexample_substring_shadows_exact :
    resolve_alias [("buchansky", "A"), ("bucha", "B")] "bucha" = some "A"
    ∧ pyLower "bucha" = "bucha"
    ∧ ("bucha", "B") ∈ ([("buchansky", "A"), ("bucha", "B")] : Dict)
    ∧ ("A" : String) ≠ "B" :=
  ⟨rfl, rfl, by decide, by decide⟩

/-- C5 (amended): the resolver scans aliases in iteration order and
returns the subregion of the first alias whose lowercased form equals the
query or contains it as a substring (first conjunct); consequently an
exact match wins exactly when no earlier alias matches, in particular when
every alias before it fails the substring test (second conjunct). -/
theorem C5_resolver_first_hit_amended :
    (∀ (m : Dict) (kw : String),
        resolve_alias m kw
          = (m.find? fun p =>
              decide (kw = pyLower p.1) || pyIn kw (pyLower p.1)).map
              Prod.snd)
    ∧ (∀ (pre post : Dict) (al v kw : String),
        pyLower al = kw →
        (∀ p ∈ pre,
          (decide (kw = pyLower p.1) || pyIn kw (pyLower p.1)) = false) →
        resolve_alias (pre ++ (al, v) :: post) kw = some v) := by
  constructor
  · intro m kw
    induction m with
    | nil => rfl
    | cons hd rest ih =>
      obtain ⟨al, sub⟩ := hd
      by_cases hcond : kw = pyLower al ∨ pyIn kw (pyLower al) = true
      · have hb : (decide (kw = pyLower al) || pyIn kw (pyLower al)) = true := by
          rcases hcond with h | h
          · simp [h]
          · simp [h]
        simp only [resolve_alias, if_pos hcond, List.find?_cons]
        rw [hb]
        rfl
      · have hA : ¬ kw = pyLower al := fun h => hcond (Or.inl h)
        have hB : pyIn kw (pyLower al) = false := by
          cases hBB : pyIn kw (pyLower al)
          · rfl
          · exact absurd (Or.inr hBB) hcond
        have hb : (decide (kw = pyLower al) || pyIn kw (pyLower al)) = false := by
          simp [hA, hB]
        simp only [resolve_alias, if_neg hcond, List.find?_cons]
        rw [hb]
        exact ih
  · intro pre
    induction pre with
    | nil =>
      intro post al v kw hal _
      simp only [List.nil_append, resolve_alias,
        if_pos (Or.inl hal.symm)]
    | cons p pre' ih =>
      intro post al v kw hal hfail
      obtain ⟨pa, pb⟩ := p
      have hp := hfail (pa, pb) (List.mem_cons.mpr (Or.inl rfl))
      have hA : ¬ kw = pyLower pa := by
        intro h
        simp [h] at hp
      have hB : ¬ pyIn kw (pyLower pa) = true := by
        intro h
        simp [h] at hp
      have hcond : ¬ (kw = pyLower pa ∨ pyIn kw (pyLower pa) = true) :=
        fun h => h.elim hA hB
      simp only [List.cons_append, resolve_alias, if_neg hcond]
      exact ih post al v kw hal
        (fun q hq => hfail q (List.mem_cons.mpr (Or.inr hq)))

/-- Witness for C5 (amended): when the exact-matching alias comes first,
the resolver does return its subregion. -/
theorem C5_resolver_first_hit_amended_witness :
    resolve_alias [("bucha", "B"), ("buchansky", "A")] "bucha" = some "B" :=
  C5_resolver_first_hit_amended.2 [] [("buchansky", "A")] "bucha" "B" "bucha"
    rfl (by intro p hp; simp at hp)

/-- C6 counterexample: the full curation round-trip for the unknown
keyword `irpin2` with the admin selecting the non-special region
`Одеська область`.  The keyword is persisted under that region's section
(fifth conjunct), but a subsequent `що по irpin2?` query is again answered
with the unknown-place prompt (sixth conjunct), because the resolver reads
only the Kyiv section, which never gained the alias (seventh conjunct) —
the claim's "the resolver subsequently resolves K to that region" fails. -/
theorem C6_counterexample_resolver_misses_added_keyword :
    scenarioAsked.pending_location = some "irpin2"
    ∧ (dispatch scenarioAsked 7 42 100 "так").2
        = [Out.adminProposal "irpin2", Out.replySentToAdmin]
    ∧ scenarioAdminAdd.await_region = true
    ∧ scenarioAdminAdd.pending_keyword = some "irpin2"
    ∧ locGet scenarioRegionDone.saved_dict "Одеська область"
        = some [("irpin2", "Одеська область")]
    ∧ (dispatch scenarioRegionDone 7 42 100 "що по irpin2?").2
        = [Out.replyUnknownAsk]
    ∧ resolve_alias
        ((locGet scenarioRegionDone.locations_dict "Київська область").getD [])
        "irpin2" = none :=
  ⟨rfl, rfl, rfl, rfl, rfl, rfl, rfl⟩

/-- C6 (amended): when the admin, holding a pending keyword, selects a
non-special region, the persisted dictionary afterwards maps the keyword
to that region inside the region's own section, and the in-memory copy is
the saved copy; but the Kyiv section — the only one the resolver reads —
is unchanged, so a query that did not resolve before still does not
resolve afterwards. -/
theorem C6_curation_write_amended :
    ∀ (st : BotState) (uid aid : Int) (text kw q : String),
      uid = aid → st.await_region = true → st.pending_keyword = some kw →
      kw ≠ "" → pyStrip text ≠ "" → pyStrip text ≠ "Київська область" →
      dictGet ((locGet (region_selected st uid aid text).1.saved_dict
          (pyStrip text)).getD []) kw = some (pyStrip text)
      ∧ (region_selected st uid aid text).1.locations_dict
          = (region_selected st uid aid text).1.saved_dict
      ∧ locGet (region_selected st uid aid text).1.saved_dict
          "Київська область" = locGet st.saved_dict "Київська область"
      ∧ (resolve_alias ((locGet st.saved_dict "Київська область").getD []) q
            = none →
         resolve_alias
           ((locGet (region_selected st uid aid text).1.locations_dict
              "Київська область").getD []) q = none) := by
  intro st uid aid text kw q huid haw hpk hkw hr hrko
  subst huid
  have hne1 : ¬ uid ≠ uid := fun h => h rfl
  have hne2 : ¬ st.await_region = false := by simp [haw]
  have hne3 : ¬ (kw = "" ∨ pyStrip text = "") := by simp [hkw, hr]
  simp only [region_selected, if_neg hne1, if_neg hne2, hpk, if_neg hne3,
    if_neg hrko]
  have hKO : "Київська область" ≠ pyStrip text := fun h => hrko h.symm
  have hsectKO : locGet (if (locGet st.saved_dict (pyStrip text)).isNone then
        locInsert st.saved_dict (pyStrip text) [] else st.saved_dict)
      "Київська область" = locGet st.saved_dict "Київська область" := by
    by_cases hfresh : (locGet st.saved_dict (pyStrip text)).isNone
    · rw [if_pos hfresh, locGet_insert_other _ _ _ _ hKO]
    · rw [if_neg hfresh]
  refine ⟨?_, by first | rfl | trivial, ?_, ?_⟩
  · rw [locGet_insert_self]
    exact dictGet_insert_self _ kw (pyStrip text)
  · rw [locGet_insert_other _ _ _ _ hKO, hsectKO]
  · intro hq
    rw [locGet_insert_other _ _ _ _ hKO, hsectKO]
    exact hq

/-- Witness for C6 (amended): the scenario state in which the admin has a
pending keyword and selects `Одеська область`. -/
theorem C6_curation_write_amended_witness :
    dictGet ((locGet (region_selected scenarioAdminAdd 42 42
        "Одеська область").1.saved_dict
        (pyStrip "Одеська область")).getD []) "irpin2"
      = some (pyStrip "Одеська область")
    ∧ (region_selected scenarioAdminAdd 42 42 "Одеська область").1.locations_dict
        = (region_selected scenarioAdminAdd 42 42 "Одеська область").1.saved_dict
    ∧ locGet (region_selected scenarioAdminAdd 42 42
        "Одеська область").1.saved_dict "Київська область"
        = locGet scenarioAdminAdd.saved_dict "Київська область"
    ∧ (resolve_alias
          ((locGet scenarioAdminAdd.saved_dict "Київська область").getD [])
          "irpin2" = none →
       resolve_alias
         ((locGet (region_selected scenarioAdminAdd 42 42
            "Одеська область").1.locations_dict "Київська область").getD [])
         "irpin2" = none) :=
  C6_curation_write_amended scenarioAdminAdd 42 42 "Одеська область" "irpin2"
    "irpin2" rfl rfl rfl (by decide) (by decide) (by decide)

/-- C7 counterexample: with a proposal pending, a message that is neither
yes nor no (here a greeting) leaves the conversation untouched — the
pending proposal is retained, not discarded, so the conversation does not
return to IDLE as the claim states (the yes/no handler is only routed
`так`/`ні`, and its own guard returns without clearing the proposal). -/
theorem C7_counterexample_distraction_keeps_proposal :
    dispatch scenarioAsked 7 42 100 "добрий вечір" = (scenarioAsked, [])
    ∧ scenarioAsked.pending_location = some "irpin2"
    ∧ user_yes_no scenarioAsked "добрий вечір" = (scenarioAsked, []) :=
  ⟨rfl, rfl, rfl⟩

/-- C7 (amended): replying `ні` with a proposal pending discards the
proposal and changes nothing else — in particular both dictionary copies
are untouched (first conjunct, a full-state equation); but a message that
is neither yes nor no does not discard the proposal: the yes/no handler
returns with the state unchanged (second conjunct). -/
theorem C7_decline_amended :
    (∀ (st : BotState) (uid aid cid : Int) (kw : String),
        st.pending_location = some kw → kw ≠ "" →
        dispatch st uid aid cid "ні"
          = ({ st with pending_location := none }, [Out.replyDeclined]))
    ∧ (∀ (st : BotState) (text : String),
        pyLower (pyStrip text) ≠ "так" → pyLower (pyStrip text) ≠ "ні" →
        user_yes_no st text = (st, [])) := by
  constructor
  · intro st uid aid cid kw h hkw
    have hroute : dispatch st uid aid cid "ні" = user_yes_no st "ні" := rfl
    have e1 : pyLower (pyStrip "ні") = "ні" := rfl
    rw [hroute]
    simp [user_yes_no, e1, h, hkw]
  · intro st text h1 h2
    simp [user_yes_no, h1, h2]

/-- Witness for C7 (amended): declining the pending `irpin2` proposal. -/
theorem C7_decline_amended_witness :
    dispatch scenarioAsked 7 42 100 "ні"
      = ({ scenarioAsked with pending_location := none },
         [Out.replyDeclined]) :=
  C7_decline_amended.1 scenarioAsked 7 42 100 "irpin2" rfl (by decide)

/-- C8 counterexample: the admin replies outside the presented list at
both selection stages (`атлантида` while a region is awaited, `99` while a
subregion is awaited).  The bot emits no message at all — not the one
explicit "invalid" error the claim requires — though the pending selection
is indeed unchanged. -/
theorem C8_counterexample_no_invalid_message :
    dispatch scenarioAdminAdd 42 42 100 "атлантида" = (scenarioAdminAdd, [])
    ∧ scenarioAdminAdd.await_region = true
    ∧ dispatch scenarioAwaitSub 42 42 100 "99" = (scenarioAwaitSub, [])
    ∧ scenarioAwaitSub.await_subregion = true :=
  ⟨rfl, rfl, rfl, rfl⟩

/-- C8 (amended): a reply that matches no registered handler pattern — in
particular any selection outside the presented region and subregion lists
that is not some other command or query — is silently ignored: no message
is emitted and the whole state, pending selection included, is unchanged
(first conjunct).  The subregion handler likewise returns silently, with
no message, on a non-listed reply that reaches it (second conjunct). -/
theorem C8_invalid_selection_amended :
    (∀ (st : BotState) (uid aid cid : Int) (text : String),
        pyStartsWith "/start" text = false →
        pyStartsWith "/stopbot" text = false →
        pyStartsWith "/list_regions" text = false →
        pyIn "що по області" (pyLower text) = false →
        pyIn "що по києву" (pyLower text) = false →
        pyIn "як там крим" (pyLower text) = false →
        pyIn "що по одес" (pyLower text) = false →
        pyIn "що по франику" (pyLower text) = false →
        pyIn "що по івано-франківську" (pyLower text) = false →
        pyIn "що по франківську" (pyLower text) = false →
        pyIn "що по луган" (pyLower text) = false →
        pyIn "що по черніг" (pyLower text) = false →
        pyStartsWith "що по " (pyLower text) = false →
        pyLower text ≠ "так" → pyLower text ≠ "ні" →
        matchesAdminChoice text = false →
        OBLASTS_ALL.contains text = false →
        KYIV_SUBREGIONS.contains text = false →
        dispatch st uid aid cid text = (st, []))
    ∧ (∀ (st : BotState) (uid aid : Int) (text : String),
        uid = aid → st.await_subregion = true →
        KYIV_SUBREGIONS.contains (pyStrip text) = false →
        subregion_selected st uid aid text = (st, [])) := by
  constructor
  · intro st uid aid cid text h1 h2 h3 h4 h5 h6 h7 h8 h9 h10 h11 h12 h13
      h14 h15 h16 h17 h18
    have h17x : ¬ text ∈ OBLASTS_ALL := by simpa using h17
    have h18x : ¬ text ∈ KYIV_SUBREGIONS := by simpa using h18
    simp [dispatch, h1, h2, h3, h4, h5, h6, h7, h8, h9, h10, h11, h12, h13,
      h14, h15, h16, h17, h18, h17x, h18x]
  · intro st uid aid text huid hsub hmem
    subst huid
    unfold subregion_selected
    rw [if_neg (fun h => h rfl), if_neg (by simp [hsub])]
    dsimp only
    rw [if_pos hmem]

/-- Witness for C8 (amended): the awaiting-subregion state survives the
out-of-list reply `99` with no message emitted. -/
theorem C8_invalid_selection_amended_witness :
    dispatch scenarioAwaitSub 42 42 100 "99" = (scenarioAwaitSub, []) :=
  C8_invalid_selection_amended.1 scenarioAwaitSub 42 42 100 "99"
    rfl rfl rfl rfl rfl rfl rfl rfl rfl rfl rfl rfl rfl
    (by decide) (by decide) rfl rfl rfl

/-- C9: a message whose author is not the configured admin can never
change either the in-memory location dictionary or its persisted copy,
whatever the message and whatever the conversation state: the only
handlers that write the dictionary check the author id first, and every
other route leaves both copies untouched. -/
theorem C9_nonadmin_never_mutates_dictionary :
    ∀ (st : BotState) (uid aid cid : Int) (text : String),
      uid ≠ aid →
      (dispatch st uid aid cid text).1.locations_dict = st.locations_dict
      ∧ (dispatch st uid aid cid text).1.saved_dict = st.saved_dict := by
  intro st uid aid cid text huid
  have hac := admin_choice_nonadmin st uid aid text huid
  have hrs := region_selected_nonadmin st uid aid text huid
  have hss := subregion_selected_nonadmin st uid aid text huid
  have hdq := handle_dynamic_query_preserves st text
  have hyn := user_yes_no_preserves st text
  constructor
  · unfold dispatch
    dsimp only
    rw [hac, hrs, hss]
    simp only [apply_ite (fun r : BotState × List Out => r.1.locations_dict),
      hdq.1, hyn.1]
    simp
  · unfold dispatch
    dsimp only
    rw [hac, hrs, hss]
    simp only [apply_ite (fun r : BotState × List Out => r.1.saved_dict),
      hdq.2, hyn.2]
    simp

/-- Witness for C9: a non-admin user sending a region selection while the
admin's region menu is pending changes neither dictionary copy. -/
theorem C9_nonadmin_never_mutates_dictionary_witness :
    (dispatch scenarioAdminAdd 7 42 100 "Одеська область").1.locations_dict
      = scenarioAdminAdd.locations_dict
    ∧ (dispatch scenarioAdminAdd 7 42 100 "Одеська область").1.saved_dict
      = scenarioAdminAdd.saved_dict :=
  C9_nonadmin_never_mutates_dictionary scenarioAdminAdd 7 42 100
    "Одеська область" (by decide)

/-- Witness for C4 (amended): with two remembered Kyiv titles and an empty
snapshot, the tick emits exactly one all-clear and one ended intent per
title. -/
theorem C4_end_detection_amended_witness :
    (processOut (some ⟨200, true, []⟩) ⟨[], true⟩
        ⟨[("Бучанський район", "air_raid"), ("Обухівський район", "chemical")],
         true⟩ (some 5) 7).count Notif.groupCleared = 1
    ∧ (processOut (some ⟨200, true, []⟩) ⟨[], true⟩
        ⟨[("Бучанський район", "air_raid"), ("Обухівський район", "chemical")],
         true⟩ (some 5) 7).count (Notif.groupEnded "Бучанський район") = 1 := by
  have h := C4_end_detection_amended 200 [] ⟨[], true⟩
      ⟨[("Бучанський район", "air_raid"), ("Обухівський район", "chemical")],
       true⟩ (some 5) 7 rfl rfl
  constructor
  · rw [h.2.1]
    rfl
  · exact h.2.2 (by decide) rfl rfl "Бучанський район" (by decide)

end AirAlarmBot
